import Mathlib

/-!
Verification of the `useful_scripts` repository: shallow embedding of the
string-processing and classification logic of the audit scripts, with proofs
of the specified properties.  Python strings are modelled as `List Char`;
subprocess results are modelled as explicit records carrying exit code,
stdout and stderr.
-/

namespace UScripts

/-- Python strings are modelled as lists of characters. -/
abbrev Str := List Char

/-- Model of `str.strip()` on the left: drop leading whitespace. -/
def ltrim (s : Str) : Str := s.dropWhile Char.isWhitespace

/-- Model of `str.strip()` on the right: drop trailing whitespace. -/
def rtrim (s : Str) : Str := (s.reverse.dropWhile Char.isWhitespace).reverse

/-- Model of Python `str.strip()`. -/
def trim (s : Str) : Str := rtrim (ltrim s)

/-- Model of Python `str.lower()` (ASCII case folding). -/
def lowerStr (s : Str) : Str := s.map Char.toLower

/-- Value of a decimal digit character, `none` otherwise. -/
def digitVal (c : Char) : Option Nat :=
  if c.isDigit then some (c.toNat - 48) else none

/-- Digits of a Python `int()` literal after the first digit: decimal digits
with single underscores allowed between digits. -/
def pyDigitsAux : Nat → Str → Option Nat
  | acc, [] => some acc
  | acc, '_' :: c :: rest =>
    match digitVal c with
    | some d => pyDigitsAux (acc * 10 + d) rest
    | none => none
  | _acc, ['_'] => none
  | acc, c :: rest =>
    match digitVal c with
    | some d => pyDigitsAux (acc * 10 + d) rest
    | none => none

/-- Parse a nonempty decimal digit string (Python `int()` body). -/
def pyParseNat : Str → Option Nat
  | [] => none
  | c :: rest =>
    match digitVal c with
    | some d => pyDigitsAux d rest
    | none => none

/-- Model of Python `int(text)` for base 10: strip whitespace, optional sign,
decimal digits (underscores between digits allowed); `none` models
`ValueError`. -/
def pyParseInt (s : Str) : Option Int :=
  match trim s with
  | '+' :: rest => (pyParseNat rest).map (fun n => (n : Int))
  | '-' :: rest => (pyParseNat rest).map (fun n => -(n : Int))
  | t => (pyParseNat t).map (fun n => (n : Int))

/-- Result of one `subprocess.run` invocation: exit code, captured stdout and
stderr (from `git_it.run_cmd` / `subprocess.run(..., check=False)`). -/
structure CmdResult where
  returncode : Int
  stdout : Str
  stderr : Str
deriving DecidableEq

/-- `git_it.get_unpushed_commit_count`: `git rev-list --count @{u}..HEAD`;
nonzero exit reports an error and returns `None`; otherwise `int(out.strip())`
with `ValueError` also mapped to `None`. -/
def get_unpushed_commit_count (r : CmdResult) : Option Int :=
  if r.returncode ≠ 0 then none
  else pyParseInt (trim r.stdout)

/-- `abandoned_repo.get_commit_count`: `git rev-list --count HEAD`; nonzero
exit returns `0`; otherwise `int(stdout.strip())` with `ValueError` mapped to
`0`. -/
def get_commit_count (r : CmdResult) : Int :=
  if r.returncode ≠ 0 then 0
  else
    match pyParseInt (trim r.stdout) with
    | some n => n
    | none => 0

/-- The four clone-type labels of `how_cloned.CloneType`. -/
inductive CloneType where
  | ssh
  | https
  | other
  | none
deriving DecidableEq

def gitAtStr : Str := "git@".data

def sshSchemeStr : Str := "ssh://".data

def httpSchemeStr : Str := "http://".data

def httpsSchemeStr : Str := "https://".data

/-- `how_cloned.classify_clone_type`: classify the origin URL by
case-insensitive prefix. -/
def classify_clone_type : Option Str → CloneType
  | Option.none => CloneType.none
  | some url =>
    let lowered := lowerStr url
    if gitAtStr.isPrefixOf lowered || sshSchemeStr.isPrefixOf lowered then
      CloneType.ssh
    else if httpSchemeStr.isPrefixOf lowered || httpsSchemeStr.isPrefixOf lowered then
      CloneType.https
    else CloneType.other

/-! ### gha_wrong_python.py: workflow Python-version scanner -/

/-- Model of Python `str.splitlines()` (newline separators): a final segment is
emitted only when nonempty. -/
def splitLinesGo (acc : Str) : Str → List Str
  | [] => if acc.isEmpty then [] else [acc.reverse]
  | '\n' :: rest => acc.reverse :: splitLinesGo [] rest
  | c :: rest => splitLinesGo (c :: acc) rest

/-- Model of Python `text.splitlines()`. -/
def splitLines (s : Str) : List Str := splitLinesGo [] s

/-- `len(line) - len(line.lstrip())`: the number of leading whitespace
characters. -/
def indentOf (l : Str) : Nat := (l.takeWhile Char.isWhitespace).length

/-- Model of Python `needle in hay` substring containment. -/
def containsSub (needle hay : Str) : Bool :=
  hay.tails.any (fun t => needle.isPrefixOf t)

/-- Everything after the first occurrence of `c`: models
`line.split(c, 1)[1]` when `c` occurs in `line`. -/
def afterChar (c : Char) : Str → Str
  | [] => []
  | x :: rest => if x = c then rest else afterChar c rest

/-- Model of Python `str.split(sep)` splitting state: accumulate the current
segment (reversed); a final segment is always emitted. -/
def splitOnDotGo (acc : Str) : Str → List Str
  | [] => [acc.reverse]
  | '.' :: rest => acc.reverse :: splitOnDotGo [] rest
  | c :: rest => splitOnDotGo (c :: acc) rest

/-- Model of Python `version.split(".")`. -/
def splitOnDot (s : Str) : List Str := splitOnDotGo [] s

/-- A nonempty all-decimal-digits string. -/
def isDigits (s : Str) : Bool := !s.isEmpty && s.all Char.isDigit

/-- Value of a decimal digit string (Python `int` on a digit-only string). -/
def digitsToNat (s : Str) : Nat :=
  s.foldl (fun acc c => acc * 10 + (c.toNat - 48)) 0

/-- `gha_wrong_python.PYTHON_VERSION_THRESHOLD`. -/
def PYTHON_VERSION_THRESHOLD : Nat × Nat × Nat := (3, 14, 0)

/-- Python tuple comparison `<` on 3-tuples: lexicographic. -/
def tupLt (a b : Nat × Nat × Nat) : Prop :=
  a.1 < b.1 ∨ (a.1 = b.1 ∧ (a.2.1 < b.2.1 ∨ (a.2.1 = b.2.1 ∧ a.2.2 < b.2.2)))

instance (a b : Nat × Nat × Nat) : Decidable (tupLt a b) := by
  unfold tupLt; infer_instance

/-- `gha_wrong_python.parse_version`: strip, require a full match of
`\d+(\.\d+){1,2}` (equivalently: splitting on `.` yields 2 or 3 parts, each a
nonempty digit string), convert parts to numbers and zero-pad to 3
components. -/
def parse_version (s : Str) : Option (Nat × Nat × Nat) :=
  let v := trim s
  let parts := splitOnDot v
  if ((parts.length = 2 || parts.length = 3) && parts.all isDigits) then
    match parts with
    | [a, b] => some (digitsToNat a, digitsToNat b, 0)
    | [a, b, c] => some (digitsToNat a, digitsToNat b, digitsToNat c)
    | _ => none
  else none

/-- `gha_wrong_python.is_legacy_python_version`: parsed version is strictly
below the threshold tuple; unparsable versions are not legacy. -/
def is_legacy_python_version (s : Str) : Bool :=
  match parse_version s with
  | none => false
  | some t => decide (tupLt t PYTHON_VERSION_THRESHOLD)

/-- The consumed span of up to `k` regex groups `(?:\.\d+)` (greedy), as in
`extract_versions_from_text`'s pattern. -/
def versionGroups : Nat → Str → Str
  | 0, _ => []
  | Nat.succ k, '.' :: c :: rest =>
    if c.isDigit then
      let run := (c :: rest).takeWhile Char.isDigit
      let rest2 := (c :: rest).dropWhile Char.isDigit
      '.' :: (run ++ versionGroups k rest2)
    else []
  | Nat.succ _, _ => []

/-- `gha_wrong_python.extract_versions_from_text`: all captures of
`re.findall` with pattern `["']?(\d+(?:\.\d+){1,2})["']?`, scanning left to
right, non-overlapping.  A maximal digit run followed by 1–2 `.digits` groups
is captured; a digit run with no following group can start no match, and the
surrounding optional quotes never change any capture.  The recursion is
indexed by a fuel argument for structural recursion; every recursive call
strictly shortens the string, so fuel `s.length` is exact. -/
def extractGoF : Nat → Str → List Str
  | _, [] => []
  | 0, _ :: _ => []
  | Nat.succ fuel, c :: rest =>
    if c.isDigit then
      let run := (c :: rest).takeWhile Char.isDigit
      let rest1 := (c :: rest).dropWhile Char.isDigit
      let grp := versionGroups 2 rest1
      if grp.isEmpty then extractGoF fuel rest1
      else (run ++ grp) :: extractGoF fuel (rest1.drop grp.length)
    else extractGoF fuel rest

def extract_versions_from_text (s : Str) : List Str := extractGoF s.length s

def pvKey : Str := "python-version".data

/-- State of the two-mode scanner of `find_legacy_python_versions_in_text`:
top level, or inside the block of a `python-version:` key with the given
indentation. -/
inductive ScanMode where
  | top
  | block (indent : Nat)
deriving DecidableEq

def modeRank : ScanMode → Nat
  | ScanMode.top => 0
  | ScanMode.block _ => 1

/-- The line scanner of `gha_wrong_python.find_legacy_python_versions_in_text`:
inline values are scanned on the key line; block mode collects more-indented,
non-blank, non-comment member lines until a dedent, which is reprocessed at
top level.  The Python `set` of legacy versions is modelled as the list of
added elements (membership-equivalent).  The recursion is indexed by a fuel
argument for structural recursion; a step either consumes a line or switches
from block to top mode on the same lines, so each line is visited at most
twice and fuel `2 * lines.length + 1` is sufficient. -/
def findLegacyGoF : Nat → ScanMode → List Str → List Str
  | _, _, [] => []
  | 0, _, _ :: _ => []
  | Nat.succ fuel, ScanMode.top, line :: rest =>
    if !(containsSub pvKey line && line.contains ':') then
      findLegacyGoF fuel ScanMode.top rest
    else
      let indent := indentOf line
      let after := trim (afterChar ':' line)
      if !after.isEmpty then
        (extract_versions_from_text after).filter is_legacy_python_version ++
          findLegacyGoF fuel ScanMode.top rest
      else
        findLegacyGoF fuel (ScanMode.block indent) rest
  | Nat.succ fuel, ScanMode.block indent, sub :: rest =>
    let stripped := trim sub
    if stripped.isEmpty || ['#'].isPrefixOf stripped then
      findLegacyGoF fuel (ScanMode.block indent) rest
    else if indentOf sub ≤ indent then
      findLegacyGoF fuel ScanMode.top (sub :: rest)
    else
      (extract_versions_from_text sub).filter is_legacy_python_version ++
        findLegacyGoF fuel (ScanMode.block indent) rest

/-- `gha_wrong_python.find_legacy_python_versions_in_text`. -/
def find_legacy_python_versions_in_text (text : Str) : List Str :=
  findLegacyGoF (2 * (splitLines text).length + 1) ScanMode.top (splitLines text)

/-! ### not_mine.py: fork classification -/

/-- The `owner` object of a `gh repo view` JSON record; `login = none` models
a missing or null `login` key (`.get("login", "")` defaults it to `""`). -/
structure OwnerInfo where
  login : Option Str
deriving DecidableEq

/-- The `parent` object of the record; `owner = none` models a missing or
null `owner` key (`parent.get("owner") or {}`). -/
structure ParentInfo where
  owner : Option OwnerInfo
deriving DecidableEq

/-- A `gh repo view --json name,owner,isFork,parent` record as read by
`not_mine.is_fork_of_other_user`; `none` fields model missing or null JSON
entries, which the code defaults with `.get(...)` and `or {}`. -/
structure RepoInfo where
  isFork : Option Bool
  owner : Option OwnerInfo
  parent : Option ParentInfo
deriving DecidableEq

/-- Login extraction used for both owner and parent owner:
`(obj or {}).get("login", "")`. -/
def ownerLoginOf (o : Option OwnerInfo) : Str :=
  match o with
  | Option.none => []
  | some ow => ow.login.getD []

/-- The configured `not_mine.GITHUB_USERNAME`. -/
def GITHUB_USERNAME : Str := "matthewdeanmartin".data

/-- `not_mine.is_fork_of_other_user`. -/
def is_fork_of_other_user (info : RepoInfo) (username : Str) : Bool :=
  let is_fork := info.isFork.getD false
  let owner_login := ownerLoginOf info.owner
  if !is_fork then false
  else
    let parent := info.parent.getD (ParentInfo.mk Option.none)
    let parent_owner_login := ownerLoginOf parent.owner
    owner_login == username && parent_owner_login != username

/-! ### Directory enumerators -/

/-- An entry of `root.iterdir()` in listing order: its name, whether it is a
directory, and whether it contains a `.git` entry. -/
structure DirEntry where
  name : Str
  isDir : Bool
  hasGitEntry : Bool
deriving DecidableEq

/-- The sort key relation of `git_it.iter_child_dirs`:
`key=lambda p: p.name.lower()` under Python string comparison, i.e. the
lexicographic order on code points of the lowercased names. -/
def nameKeyLe (a b : DirEntry) : Prop := lowerStr a.name ≤ lowerStr b.name

instance : DecidableRel nameKeyLe := fun a b =>
  inferInstanceAs (Decidable (lowerStr a.name ≤ lowerStr b.name))

instance : IsTotal DirEntry nameKeyLe :=
  ⟨fun a b => le_total (lowerStr a.name) (lowerStr b.name)⟩

instance : IsTrans DirEntry nameKeyLe :=
  ⟨fun _ _ _ h1 h2 => le_trans h1 h2⟩

/-- `git_it.iter_child_dirs`: the child directories sorted stably by
lowercased name (Python `sorted` and insertion sort agree on the unique
stable result). -/
def iter_child_dirs (entries : List DirEntry) : List DirEntry :=
  List.insertionSort nameKeyLe (entries.filter (fun e => e.isDir))

/-- `how_cloned.iter_git_repos` (also `uncommited.iter_git_repos`): child
directories containing a `.git` entry, in listing order, unsorted. -/
def iter_git_repos (entries : List DirEntry) : List DirEntry :=
  entries.filter (fun e => e.isDir && e.hasGitEntry)

/-! ### uncommited.py: status probe and main -/

/-- Outcome of one `subprocess.run(["git", "-C", repo, "status",
"--porcelain"], check=False)` call: either an exception escaping `run` (with
its message) or a completed process. -/
inductive ProcOutcome where
  | raised (msg : Str)
  | completed (returncode : Int) (stdout : Str) (stderr : Str)
deriving DecidableEq

/-- `line.rstrip("\n")`. -/
def rstripNewlines (l : Str) : Str :=
  (l.reverse.dropWhile (fun c => c = '\n')).reverse

/-- `uncommited.git_status_porcelain`: `(has_changes, lines)`; an exception or
a nonzero exit is reported and treated as no changes. -/
def git_status_porcelain (p : ProcOutcome) : Bool × List Str :=
  match p with
  | ProcOutcome.raised _ => (false, [])
  | ProcOutcome.completed code out _err =>
    if code ≠ 0 then (false, [])
    else
      let lines :=
        ((splitLines out).filter (fun l => !(trim l).isEmpty)).map rstripNewlines
      (!lines.isEmpty, lines)

/-- One scanned child of the current directory in `uncommited.main`: the
directory entry together with the outcome of the status probe run in it. -/
structure RepoScan where
  entry : DirEntry
  status : ProcOutcome
deriving DecidableEq

/-- One `print` event of `uncommited.main` or `git_status_porcelain`, as a
constructor carrying the data interpolated into the message. -/
inductive OutMsg where
  | scanningHeader
  | errorInspecting (name : Str) (msg : Str)
  | cleanRepo (name : Str)
  | allClean
  | dirtyHeader
  | dirtyRepo (name : Str) (changeCount : Nat)
  | statusLine (line : Str)
  | doneWarning
deriving DecidableEq

def unknownGitError : Str := "unknown git error".data

/-- The error lines printed by `git_status_porcelain` itself:
`proc.stderr.strip() or proc.stdout.strip() or "unknown git error"` on a
nonzero exit, the exception text on an exception, nothing on success. -/
def statusProbeOutput (name : Str) (p : ProcOutcome) : List OutMsg :=
  match p with
  | ProcOutcome.raised m => [OutMsg.errorInspecting name m]
  | ProcOutcome.completed code out err =>
    if code ≠ 0 then
      let msg :=
        if !(trim err).isEmpty then trim err
        else if !(trim out).isEmpty then trim out
        else unknownGitError
      [OutMsg.errorInspecting name msg]
    else []

/-- The git repos visited by `uncommited.main` (those passing
`iter_git_repos`). -/
def uncommited_git_repos (scans : List RepoScan) : List RepoScan :=
  scans.filter (fun s => s.entry.isDir && s.entry.hasGitEntry)

/-- The repos collected into `dirty` by `uncommited.main`. -/
def uncommited_dirty (scans : List RepoScan) : List RepoScan :=
  (uncommited_git_repos scans).filter (fun s => (git_status_porcelain s.status).1)

/-- `uncommited.main`: the sequence of print events and the return value
(which the `raise SystemExit(main())` at module scope turns into the process
exit status). -/
def uncommited_main (verbose : Bool) (scans : List RepoScan) : List OutMsg × Int :=
  let repos := uncommited_git_repos scans
  let perRepo := (repos.map (fun s =>
    statusProbeOutput s.entry.name s.status ++
      (if (git_status_porcelain s.status).1 then []
       else if verbose then [OutMsg.cleanRepo s.entry.name] else []))).flatten
  let dirty := uncommited_dirty scans
  if dirty.isEmpty then
    (OutMsg.scanningHeader :: perRepo ++
      (if !verbose then [OutMsg.allClean] else []), 0)
  else
    (OutMsg.scanningHeader :: perRepo ++ [OutMsg.dirtyHeader] ++
      (dirty.map (fun s =>
        OutMsg.dirtyRepo s.entry.name (git_status_porcelain s.status).2.length ::
          (git_status_porcelain s.status).2.map OutMsg.statusLine)).flatten ++
      [OutMsg.doneWarning], 1)

/-! ### py14.py: virtual-environment version check -/

/-- One child of the scanned directory in `py14.main`: name, directory flag,
presence of a `.venv`, and the result of `get_python_version` on it (`none`
models "no python found"). -/
structure VenvProject where
  name : Str
  isDir : Bool
  hasVenv : Bool
  versionOut : Option Str
deriving DecidableEq

/-- One `print` event of `py14.main`. -/
inductive Py14Out where
  | badHeader
  | badItem (name : Str) (version : Str)
  | goodCount (n : Nat)
deriving DecidableEq

def noPythonFound : Str := "no python found".data

def py314Sub : Str := "3.14".data

/-- The children `py14.main` actually inspects: directories with a `.venv`. -/
def py14_matching (ps : List VenvProject) : List VenvProject :=
  ps.filter (fun p => p.isDir && p.hasVenv)

/-- The `bad` list of `py14.main`. -/
def py14_bad (ps : List VenvProject) : List (Str × Str) :=
  (py14_matching ps).filterMap (fun p =>
    match p.versionOut with
    | Option.none => some (p.name, noPythonFound)
    | some v => if containsSub py314Sub v then Option.none else some (p.name, v))

/-- The `good` counter of `py14.main`. -/
def py14_good (ps : List VenvProject) : Nat :=
  ((py14_matching ps).filter (fun p =>
    match p.versionOut with
    | some v => containsSub py314Sub v
    | Option.none => false)).length

/-- `py14.main`: print events and process exit status (main returns `None`,
so the interpreter exits 0). -/
def py14_main (ps : List VenvProject) : List Py14Out × Int :=
  let bad := py14_bad ps
  let header :=
    if !bad.isEmpty then
      Py14Out.badHeader :: bad.map (fun nv => Py14Out.badItem nv.1 nv.2)
    else []
  (header ++ [Py14Out.goodCount (py14_good ps)], 0)

/-! ### py314_support.py: PyPI 3.14 support -/

/-- Per-release data read from the release JSON by `_release_supports`:
whether the GET returned 200, the classifier list, and the
`requires_python` field (`none` models a missing or null key). -/
structure ReleaseInfo where
  fetchOk : Bool
  classifiers : List Str
  requires_python : Option Str
deriving DecidableEq

/-- `py314_support.PY_TAG`. -/
def PY_TAG : Str := "Programming Language :: Python :: 3.14".data

def reasonClassifier : Str := "classifier".data

def reasonRequiresPython : Str := "requires_python".data

/-- `py314_support.SupportResult`. -/
structure SupportResult where
  name : Str
  supported : Bool
  version : Option Str
  reason : Str
deriving DecidableEq

/-- `py314_support._release_supports`; `specAccepts rp` models
`SpecifierSet(rp).contains("3.14", prereleases=True)` of the external
`packaging` library, with `none` modelling a raised exception (swallowed by
the bare `except`). -/
def _release_supports (specAccepts : Str → Option Bool) (rel : ReleaseInfo) :
    Bool × Str :=
  if !rel.fetchOk then (false, [])
  else if rel.classifiers.contains PY_TAG then (true, reasonClassifier)
  else
    let rp := trim (rel.requires_python.getD [])
    if !rp.isEmpty then
      match specAccepts rp with
      | some true => (true, reasonRequiresPython)
      | _ => (false, [])
    else (false, [])

/-- The descending order used by `py314_support._releases_sorted`:
`versions.sort(key=Version-parse, reverse=True)`, abstracted over the parsed
key into any linear order. -/
def newestFirst {K : Type} [LinearOrder K] (key : Str → K) (a b : Str) : Prop :=
  key b ≤ key a

instance {K : Type} [LinearOrder K] (key : Str → K) :
    DecidableRel (newestFirst key) := fun a b =>
  inferInstanceAs (Decidable (key b ≤ key a))

instance {K : Type} [LinearOrder K] (key : Str → K) :
    IsTotal Str (newestFirst key) :=
  ⟨fun a b => le_total (key b) (key a)⟩

instance {K : Type} [LinearOrder K] (key : Str → K) :
    IsTrans Str (newestFirst key) :=
  ⟨fun _ _ _ h1 h2 => le_trans h2 h1⟩

/-- `py314_support._releases_sorted`: release names sorted newest first by
the parsed version key (a stable descending sort, as Python
`sort(reverse=True)`). -/
def _releases_sorted {K : Type} [LinearOrder K] (key : Str → K)
    (versions : List Str) : List Str :=
  List.insertionSort (newestFirst key) versions

/-- The scan loop of `py314_support.check_project` over the sorted release
list: return on the first supporting release, never inspecting the rest;
`relOf v` models the per-release JSON fetch for version `v`. -/
def checkGo (specAccepts : Str → Option Bool) (name : Str)
    (relOf : Str → ReleaseInfo) : List Str → SupportResult
  | [] => SupportResult.mk name false Option.none []
  | v :: rest =>
    let res := _release_supports specAccepts (relOf v)
    if res.1 then SupportResult.mk name true (some v) res.2
    else checkGo specAccepts name relOf rest

/-- `py314_support.check_project`, given the newest-first release list
produced by `_releases_sorted`. -/
def check_project {K : Type} [LinearOrder K] (key : Str → K)
    (specAccepts : Str → Option Bool) (name : Str)
    (relOf : Str → ReleaseInfo) (versions : List Str) : SupportResult :=
  checkGo specAccepts name relOf (_releases_sorted key versions)

/-! ### Concrete inputs used in the theorems below -/

/-- The block-mode workflow fragment of the spec example. -/
def exampleBlockYaml : Str := "python-version:\n  - \"3.10\"\n  - \"3.13.1\"\n".data

/-- The inline workflow fragment of the spec example. -/
def exampleInlineYaml : Str := "python-version: \"3.14\"".data

def ver310 : Str := "3.10".data

def ver3131 : Str := "3.13.1".data

def alice : Str := "alice".data

def bob : Str := "bob".data

/-- `statusErrored p`: the probe outcome is an exception or a nonzero exit
(the error cases of `uncommited.git_status_porcelain`). -/
def statusErrored : ProcOutcome → Prop
  | ProcOutcome.raised _ => True
  | ProcOutcome.completed code _ _ => code ≠ 0

instance (p : ProcOutcome) : Decidable (statusErrored p) := by
  unfold statusErrored
  cases p <;> infer_instance

/-- A directory entry named `b`, a git repository (listed first). -/
def entryB : DirEntry := DirEntry.mk ("b".data) true true

/-- A directory entry named `A`, a git repository (listed second). -/
def entryA : DirEntry := DirEntry.mk ("A".data) true true

/-- A scanned git repository whose status probe reported one modified path. -/
def dirtyScan : RepoScan :=
  RepoScan.mk (DirEntry.mk ("r".data) true true)
    (ProcOutcome.completed 0 (" M x\n".data) [])

/-- A scanned git repository whose status probe exited nonzero. -/
def erroredScan : RepoScan :=
  RepoScan.mk (DirEntry.mk ("r".data) true true)
    (ProcOutcome.completed 128 [] ("fatal".data))

/-- A sample release: OK fetch, the 3.14 trove classifier, no
`requires_python`. -/
def sampleRelease : ReleaseInfo := ReleaseInfo.mk true [PY_TAG] Option.none

def pkgName : Str := "pkg".data

def ver20 : Str := "2.0".data

def ver10 : Str := "1.0".data

/-! ## Helper lemmas -/

theorem isPrefixOf_head {a : Char} {p q : Str}
    (hp : List.isPrefixOf (a :: p) q = true) : ∃ t, q = a :: t := by
  cases q with
  | nil => simp [List.isPrefixOf] at hp
  | cons c t =>
    refine ⟨t, ?_⟩
    simp only [List.isPrefixOf, Bool.and_eq_true, beq_iff_eq] at hp
    rw [hp.1]

/-- If two nonempty strings with distinct first characters are compared
against the same string, at most one is a prefix of it. -/
theorem isPrefixOf_false_of_head_ne {a b : Char} {p q l : Str}
    (hab : a ≠ b) (hp : List.isPrefixOf (a :: p) l = true) :
    List.isPrefixOf (b :: q) l = false := by
  obtain ⟨t, rfl⟩ := isPrefixOf_head hp
  simp only [List.isPrefixOf, Bool.and_eq_false_iff]
  left
  simpa using fun h => hab h.symm

/-! ## Theorems for the claims -/

/-- C1 counterexample: the commit-count collector of `abandoned_repo.py`
returns the integer `0` for a failed external command (nonzero exit), so it
is not true that every git fact collector returns 0 only when the command
succeeds with output `"0"`. -/
theorem C1_counterexample :
    get_commit_count (CmdResult.mk 1 [] []) = 0 ∧
    (CmdResult.mk 1 [] []).returncode ≠ 0 ∧
    trim (CmdResult.mk 1 [] []).stdout ≠ ("0".data) := by
  refine ⟨by decide, by decide, by decide⟩

/-- C1 (amended): the ahead-of-upstream collector
(`git_it.get_unpushed_commit_count`) returns the `None` sentinel on a nonzero
exit or non-numeric output and yields `0` only when the command succeeded and
its stripped output parses as the integer 0; the commit-count collector
(`abandoned_repo.get_commit_count`) instead falls back to the integer `0` on
a nonzero exit, and on success returns 0 only for output parsing as 0 or
non-numeric output. -/
theorem C1_collectors (r : CmdResult) :
    (r.returncode ≠ 0 → get_unpushed_commit_count r = Option.none) ∧
    (r.returncode = 0 → pyParseInt (trim r.stdout) = Option.none →
      get_unpushed_commit_count r = Option.none) ∧
    (get_unpushed_commit_count r = some 0 →
      r.returncode = 0 ∧ pyParseInt (trim r.stdout) = some 0) ∧
    (r.returncode ≠ 0 → get_commit_count r = 0) ∧
    (r.returncode = 0 → get_commit_count r = 0 →
      pyParseInt (trim r.stdout) = some 0 ∨
        pyParseInt (trim r.stdout) = Option.none) := by
  refine ⟨?_, ?_, ?_, ?_, ?_⟩
  · intro h
    unfold get_unpushed_commit_count
    simp [h]
  · intro h hp
    unfold get_unpushed_commit_count
    simp [h, hp]
  · intro hs
    unfold get_unpushed_commit_count at hs
    by_cases h : r.returncode = 0
    · refine ⟨h, ?_⟩
      simpa [h] using hs
    · simp [h] at hs
  · intro h
    unfold get_commit_count
    simp [h]
  · intro h h0
    unfold get_commit_count at h0
    rcases hq : pyParseInt (trim r.stdout) with _ | n
    · exact Or.inr rfl
    · simp only [h, hq, ne_eq, not_true_eq_false, if_false, ite_false] at h0
      subst h0
      exact Or.inl rfl

/-- C1 witness: applying the amended theorem at a failed command. -/
theorem C1_collectors_witness :
    get_unpushed_commit_count (CmdResult.mk 2 [] []) = Option.none ∧
    get_commit_count (CmdResult.mk 2 [] []) = 0 :=
  ⟨(C1_collectors (CmdResult.mk 2 [] [])).1 (by decide),
   (C1_collectors (CmdResult.mk 2 [] [])).2.2.2.1 (by decide)⟩

/-- C2: clone-URL classification is total on optional URL strings: a
lowercase `git@`/`ssh://` prefix yields `ssh`; a lowercase
`http://`/`https://` prefix yields `https`; any other non-empty string
yields `other`; an absent URL yields `none`, and every present string maps
to exactly one of the three non-`none` labels (the classification is a pure
function of the string, which it never mutates). -/
theorem C2_clone_classification (s : Str) :
    classify_clone_type Option.none = CloneType.none ∧
    ((gitAtStr.isPrefixOf (lowerStr s) || sshSchemeStr.isPrefixOf (lowerStr s)) = true →
      classify_clone_type (some s) = CloneType.ssh) ∧
    ((httpSchemeStr.isPrefixOf (lowerStr s) || httpsSchemeStr.isPrefixOf (lowerStr s)) = true →
      classify_clone_type (some s) = CloneType.https) ∧
    ((gitAtStr.isPrefixOf (lowerStr s) || sshSchemeStr.isPrefixOf (lowerStr s)) = false →
      (httpSchemeStr.isPrefixOf (lowerStr s) || httpsSchemeStr.isPrefixOf (lowerStr s)) = false →
      classify_clone_type (some s) = CloneType.other) ∧
    classify_clone_type (some s) ≠ CloneType.none := by
  refine ⟨rfl, ?_, ?_, ?_, ?_⟩
  · intro h
    unfold classify_clone_type
    simp only [h, if_true, ite_true]
  · intro h
    have hA : (gitAtStr.isPrefixOf (lowerStr s) || sshSchemeStr.isPrefixOf (lowerStr s)) = false := by
      rcases Bool.or_eq_true_iff.mp h with hh | hh
      · rw [Bool.or_eq_false_iff]
        exact ⟨isPrefixOf_false_of_head_ne (by decide) hh,
               isPrefixOf_false_of_head_ne (by decide) hh⟩
      · rw [Bool.or_eq_false_iff]
        exact ⟨isPrefixOf_false_of_head_ne (by decide) hh,
               isPrefixOf_false_of_head_ne (by decide) hh⟩
    unfold classify_clone_type
    simp only [hA, h, Bool.false_eq_true, if_false, ite_false, if_true, ite_true]
  · intro hA hB
    unfold classify_clone_type
    simp only [hA, hB, Bool.false_eq_true, if_false, ite_false]
  · simp only [classify_clone_type]
    split
    · decide
    · split
      · decide
      · decide

/-- C2 witness: the three example URLs of the spec. -/
theorem C2_clone_classification_witness :
    classify_clone_type (some ("git@github.com:u/r.git".data)) = CloneType.ssh ∧
    classify_clone_type (some ("https://github.com/u/r".data)) = CloneType.https ∧
    classify_clone_type (some ("ftp://x".data)) = CloneType.other :=
  ⟨(C2_clone_classification _).2.1 (by decide),
   (C2_clone_classification _).2.2.1 (by decide),
   (C2_clone_classification _).2.2.2.1 (by decide) (by decide)⟩

/-- Every version the scanner reports was admitted by the legacy filter. -/
theorem mem_findLegacyGoF_is_legacy (fuel : Nat) :
    ∀ (mode : ScanMode) (lines : List Str) (v : Str),
      v ∈ findLegacyGoF fuel mode lines → is_legacy_python_version v = true := by
  induction fuel with
  | zero =>
    intro mode lines v h
    cases lines with
    | nil => simp [findLegacyGoF] at h
    | cons a rest => simp [findLegacyGoF] at h
  | succ fuel ih =>
    intro mode lines v h
    cases lines with
    | nil => simp [findLegacyGoF] at h
    | cons line rest =>
      cases mode with
      | top =>
        simp only [findLegacyGoF] at h
        split at h
        · exact ih _ _ v h
        · split at h
          · rcases List.mem_append.mp h with h1 | h1
            · exact (List.mem_filter.mp h1).2
            · exact ih _ _ v h1
          · exact ih _ _ v h
      | block indent =>
        simp only [findLegacyGoF] at h
        split at h
        · exact ih _ _ v h
        · split at h
          · exact ih _ _ v h
          · rcases List.mem_append.mp h with h1 | h1
            · exact (List.mem_filter.mp h1).2
            · exact ih _ _ v h1

/-- C3: on the block-mode spec example (members at indentation 2) the scanner
extracts `3.10` and `3.13.1` and classifies both legacy; on the inline
`python-version: "3.14"` example it reports no legacy version; in general a
version is legacy iff its parse (zero-padded to a (major, minor, patch)
tuple) is lexicographically below the (3, 14, 0) threshold, and everything
the scanner reports is legacy. -/
theorem C3_workflow_versions :
    find_legacy_python_versions_in_text exampleBlockYaml = [ver310, ver3131] ∧
    find_legacy_python_versions_in_text exampleInlineYaml = [] ∧
    (∀ v : Str, is_legacy_python_version v = true ↔
      ∃ t : Nat × Nat × Nat,
        parse_version v = some t ∧ tupLt t PYTHON_VERSION_THRESHOLD) ∧
    (∀ (text : Str) (v : Str), v ∈ find_legacy_python_versions_in_text text →
      is_legacy_python_version v = true) := by
  refine ⟨by decide, by decide, ?_, ?_⟩
  · intro v
    unfold is_legacy_python_version
    rcases hp : parse_version v with _ | t
    · simp
    · simp [decide_eq_true_eq]
  · intro text v hv
    exact mem_findLegacyGoF_is_legacy _ _ _ v hv

/-- C3 witness: the scanner's report on the block example contains `3.10`,
which is therefore legacy. -/
theorem C3_workflow_versions_witness : is_legacy_python_version ver310 = true :=
  C3_workflow_versions.2.2.2 exampleBlockYaml ver310 (by decide)

/-- C4: on records that report all fields, fork-of-other-user classification
holds iff the record is a fork, its owner login equals the configured
username, and the parent owner login differs; in particular a self-fork
(owner `alice`, parent owner `alice`) is not reported while owner `alice`
with parent owner `bob` is. -/
theorem C4_fork_classification :
    (∀ (isF : Bool) (ol pl u : Str),
      is_fork_of_other_user
        (RepoInfo.mk (some isF) (some (OwnerInfo.mk (some ol)))
          (some (ParentInfo.mk (some (OwnerInfo.mk (some pl)))))) u = true ↔
        (isF = true ∧ ol = u ∧ pl ≠ u)) ∧
    is_fork_of_other_user
      (RepoInfo.mk (some true) (some (OwnerInfo.mk (some alice)))
        (some (ParentInfo.mk (some (OwnerInfo.mk (some alice)))))) alice = false ∧
    is_fork_of_other_user
      (RepoInfo.mk (some true) (some (OwnerInfo.mk (some alice)))
        (some (ParentInfo.mk (some (OwnerInfo.mk (some bob)))))) alice = true := by
  refine ⟨?_, by decide, by decide⟩
  intro isF ol pl u
  unfold is_fork_of_other_user ownerLoginOf
  cases isF with
  | false => simp
  | true => simp [bne_iff_ne]

/-- C4 witness: the reported example, via the general classification. -/
theorem C4_fork_classification_witness :
    is_fork_of_other_user
      (RepoInfo.mk (some true) (some (OwnerInfo.mk (some alice)))
        (some (ParentInfo.mk (some (OwnerInfo.mk (some bob)))))) alice = true :=
  (C4_fork_classification.1 true alice bob alice).mpr ⟨rfl, rfl, by decide⟩

/-- C10: a fork owned by the configured (nonempty) username whose parent is
missing or null, whose parent lacks an owner, or whose parent owner lacks a
login, is classified as a fork of another user: the defaulted parent owner
login is the empty string, which differs from the username. -/
theorem C10_fork_absent_parent (username : Str) (info : RepoInfo)
    (hu : username ≠ [])
    (hf : info.isFork = some true)
    (ho : ownerLoginOf info.owner = username)
    (hp : info.parent = Option.none ∨
      info.parent = some (ParentInfo.mk Option.none) ∨
      ∃ ow : OwnerInfo, info.parent = some (ParentInfo.mk (some ow)) ∧
        ow.login = Option.none) :
    is_fork_of_other_user info username = true := by
  have hpl : ownerLoginOf (info.parent.getD (ParentInfo.mk Option.none)).owner = [] := by
    rcases hp with h | h | ⟨ow, h, hl⟩
    · rw [h]; rfl
    · rw [h]; rfl
    · rw [h]
      simp [ownerLoginOf, hl]
  unfold is_fork_of_other_user
  rw [hf, ho]
  simp only [Option.getD_some, Bool.not_true, Bool.false_eq_true, if_false,
    ite_false, hpl, Bool.and_eq_true, beq_iff_eq, bne_iff_ne, ne_eq]
  exact ⟨trivial, fun h => hu h.symm⟩

/-- C10 witness: a fork of the configured user with no parent metadata. -/
theorem C10_fork_absent_parent_witness :
    is_fork_of_other_user
      (RepoInfo.mk (some true) (some (OwnerInfo.mk (some GITHUB_USERNAME)))
        Option.none) GITHUB_USERNAME = true :=
  C10_fork_absent_parent GITHUB_USERNAME
    (RepoInfo.mk (some true) (some (OwnerInfo.mk (some GITHUB_USERNAME)))
      Option.none)
    (by decide) rfl rfl (Or.inl rfl)

/-- C5 counterexample: the enumerator used by `how_cloned.py` (and
`uncommited.py`) returns the child git directories in raw listing order: for
a listing `[b, A]` it returns `[b, A]`, which is not ordered
case-insensitively by name (`a < b`), so it is not true that every tool's
enumerator returns the children sorted. -/
theorem C5_counterexample :
    iter_git_repos [entryB, entryA] = [entryB, entryA] ∧
    ¬ nameKeyLe entryB entryA ∧ entryB ≠ entryA := by
  refine ⟨by decide, by decide, by decide⟩

/-- C5 (amended): `git_it.iter_child_dirs` returns exactly the immediate
child directories (a permutation of the directory children) sorted
case-insensitively by name, while the enumerators of `how_cloned.py` /
`uncommited.py` (`iter_git_repos`) return the git-repository children in the
underlying listing order without sorting. -/
theorem C5_enumerators (entries : List DirEntry) :
    (iter_child_dirs entries).Perm (entries.filter (fun e => e.isDir)) ∧
    List.Sorted nameKeyLe (iter_child_dirs entries) ∧
    iter_git_repos entries = entries.filter (fun e => e.isDir && e.hasGitEntry) :=
  ⟨List.perm_insertionSort nameKeyLe (entries.filter (fun e => e.isDir)),
   List.sorted_insertionSort nameKeyLe (entries.filter (fun e => e.isDir)),
   rfl⟩

/-- C6: the uncommitted-changes checker exits nonzero iff at least one
scanned git repository reports local changes, and its exit status is always
0 or 1. -/
theorem C6_uncommited_exit (verbose : Bool) (scans : List RepoScan) :
    ((uncommited_main verbose scans).2 ≠ 0 ↔
      ∃ s ∈ uncommited_git_repos scans,
        (git_status_porcelain s.status).1 = true) ∧
    ((uncommited_main verbose scans).2 = 0 ∨
      (uncommited_main verbose scans).2 = 1) := by
  have key : (uncommited_dirty scans).isEmpty = true ↔
      ¬ ∃ s ∈ uncommited_git_repos scans,
        (git_status_porcelain s.status).1 = true := by
    rw [List.isEmpty_iff]
    unfold uncommited_dirty
    rw [List.filter_eq_nil_iff]
    simp
  have hexit : (uncommited_main verbose scans).2 =
      if (uncommited_dirty scans).isEmpty then (0 : Int) else 1 := by
    unfold uncommited_main
    by_cases he : (uncommited_dirty scans).isEmpty = true <;> simp [he]
  rw [hexit]
  by_cases he : (uncommited_dirty scans).isEmpty = true
  · rw [if_pos he]
    exact ⟨by simp [key.mp he], Or.inl rfl⟩
  · rw [if_neg he]
    refine ⟨?_, Or.inr rfl⟩
    constructor
    · intro _
      by_contra hne
      exact he (key.mpr hne)
    · intro _
      decide

/-- C6 witness: one dirty repository forces a nonzero exit. -/
theorem C6_uncommited_exit_witness : (uncommited_main false [dirtyScan]).2 ≠ 0 :=
  ((C6_uncommited_exit false [dirtyScan]).1).mpr ⟨dirtyScan, by decide, by decide⟩

/-- C8: with zero matching repositories the uncommitted-changes checker
prints the explicit all-clean confirmation and returns 0, and the
venv-version checker prints its (nonempty) zero-good summary and returns 0;
neither is silent. -/
theorem C8_report_on_empty (scans : List RepoScan) (ps : List VenvProject) :
    (uncommited_git_repos scans = [] →
      (uncommited_main false scans).1 =
        [OutMsg.scanningHeader, OutMsg.allClean] ∧
      OutMsg.allClean ∈ (uncommited_main false scans).1 ∧
      (uncommited_main false scans).2 = 0) ∧
    (py14_matching ps = [] →
      (py14_main ps).1 = [Py14Out.goodCount 0] ∧
      (py14_main ps).1 ≠ [] ∧
      (py14_main ps).2 = 0) := by
  constructor
  · intro h
    have hd : uncommited_dirty scans = [] := by
      unfold uncommited_dirty
      rw [h]
      rfl
    refine ⟨?_, ?_, ?_⟩
    · unfold uncommited_main
      rw [h, hd]
      rfl
    · unfold uncommited_main
      rw [h, hd]
      simp
    · unfold uncommited_main
      rw [hd]
      rfl
  · intro h
    have hb : py14_bad ps = [] := by
      unfold py14_bad
      rw [h]
      rfl
    have hg : py14_good ps = 0 := by
      unfold py14_good
      rw [h]
      rfl
    refine ⟨?_, ?_, rfl⟩
    · unfold py14_main
      rw [hb, hg]
      rfl
    · unfold py14_main
      rw [hb]
      simp

/-- C8 witness: the empty scan for both tools. -/
theorem C8_report_on_empty_witness :
    (uncommited_main false []).2 = 0 ∧ (py14_main []).1 = [Py14Out.goodCount 0] :=
  ⟨((C8_report_on_empty [] []).1 rfl).2.2, ((C8_report_on_empty [] []).2 rfl).1⟩

/-- C9: a failed `git status --porcelain` probe (exception or nonzero exit)
yields `(False, [])`, so erroring repositories are excluded from the dirty
list; a run in which every git repository errors has an empty dirty list,
exits 0 and still prints the all-clean message. -/
theorem C9_status_error_clean (p : ProcOutcome) (scans : List RepoScan) :
    (statusErrored p → git_status_porcelain p = (false, [])) ∧
    ((∀ s ∈ uncommited_git_repos scans, statusErrored s.status) →
      uncommited_dirty scans = [] ∧
      (uncommited_main false scans).2 = 0 ∧
      OutMsg.allClean ∈ (uncommited_main false scans).1) := by
  have probe : ∀ q : ProcOutcome, statusErrored q →
      git_status_porcelain q = (false, []) := by
    intro q hq
    cases q with
    | raised m => rfl
    | completed code out err =>
      simp only [statusErrored] at hq
      simp only [git_status_porcelain]
      rw [if_pos hq]
  constructor
  · exact probe p
  · intro h
    have hd : uncommited_dirty scans = [] := by
      unfold uncommited_dirty
      rw [List.filter_eq_nil_iff]
      intro s hs
      rw [probe s.status (h s hs)]
      simp
    refine ⟨hd, ?_, ?_⟩
    · unfold uncommited_main
      rw [hd]
      rfl
    · unfold uncommited_main
      rw [hd]
      simp

/-- C9 witness: a scan whose only repository's probe exited nonzero. -/
theorem C9_status_error_clean_witness :
    git_status_porcelain erroredScan.status = (false, []) ∧
    (uncommited_main false [erroredScan]).2 = 0 :=
  ⟨(C9_status_error_clean erroredScan.status []).1 (by decide),
   ((C9_status_error_clean (ProcOutcome.raised []) [erroredScan]).2
      (by decide)).2.1⟩

/-- C7: a fetched release supports Python 3.14 iff its classifier list
contains the exact 3.14 trove tag or its nonempty stripped
`requires_python` specifier accepts `"3.14"` (with pre-releases allowed, as
modelled by `specAccepts`); the release list is scanned in the
newest-first order produced by the descending version sort, and the first
supporting release is returned with the scan stopping there — the result
does not depend on the releases after the first match. -/
theorem C7_pypi_support {K : Type} [LinearOrder K] (key : Str → K)
    (specAccepts : Str → Option Bool) (name : Str)
    (relOf : Str → ReleaseInfo) :
    (∀ rel : ReleaseInfo, rel.fetchOk = true →
      ((_release_supports specAccepts rel).1 = true ↔
        (PY_TAG ∈ rel.classifiers ∨
          (trim (rel.requires_python.getD []) ≠ [] ∧
            specAccepts (trim (rel.requires_python.getD [])) = some true)))) ∧
    (∀ versions : List Str,
      check_project key specAccepts name relOf versions =
        checkGo specAccepts name relOf (_releases_sorted key versions) ∧
      List.Sorted (newestFirst key) (_releases_sorted key versions) ∧
      (_releases_sorted key versions).Perm versions) ∧
    (∀ (pre post post2 : List Str) (v : Str),
      (∀ u ∈ pre, (_release_supports specAccepts (relOf u)).1 = false) →
      (_release_supports specAccepts (relOf v)).1 = true →
      checkGo specAccepts name relOf (pre ++ v :: post) =
        SupportResult.mk name true (some v)
          (_release_supports specAccepts (relOf v)).2 ∧
      checkGo specAccepts name relOf (pre ++ v :: post) =
        checkGo specAccepts name relOf (pre ++ v :: post2)) := by
  refine ⟨?_, ?_, ?_⟩
  · intro rel hf
    unfold _release_supports
    rw [hf]
    simp only [Bool.not_true, Bool.false_eq_true, if_false, ite_false]
    by_cases hm : PY_TAG ∈ rel.classifiers
    · simp [hm]
    · by_cases hrp : trim (rel.requires_python.getD []) = []
      · simp [hm, hrp]
      · rcases ha : specAccepts (trim (rel.requires_python.getD [])) with _ | b
        · simp [hm, hrp, ha]
        · cases b with
          | false => simp [hm, hrp, ha]
          | true => simp [hm, hrp, ha]
  · intro versions
    exact ⟨rfl, List.sorted_insertionSort (newestFirst key) versions,
      List.perm_insertionSort (newestFirst key) versions⟩
  · intro pre post post2 v hpre hv
    induction pre with
    | nil =>
      constructor
      · simp only [List.nil_append, checkGo, hv, if_true, ite_true]
      · simp only [List.nil_append, checkGo, hv, if_true, ite_true]
    | cons u pre ih =>
      have hu : (_release_supports specAccepts (relOf u)).1 = false :=
        hpre u (List.mem_cons_self u pre)
      have hrest := ih (fun w hw => hpre w (List.mem_cons_of_mem u hw))
      constructor
      · simp only [List.cons_append, checkGo, hu, Bool.false_eq_true,
          if_false, ite_false]
        exact hrest.1
      · simp only [List.cons_append, checkGo, hu, Bool.false_eq_true,
          if_false, ite_false]
        exact hrest.2

/-- C7 witness: for a project whose newest release carries the 3.14
classifier, the scan returns that release with reason `classifier` without
inspecting the older release. -/
theorem C7_pypi_support_witness :
    checkGo (fun _ => some true) pkgName (fun _ => sampleRelease)
      ([] ++ ver20 :: [ver10]) =
      SupportResult.mk pkgName true (some ver20) reasonClassifier :=
  ((C7_pypi_support (fun _ => (0 : Nat)) (fun _ => some true) pkgName
      (fun _ => sampleRelease)).2.2 [] [ver10] [] ver20
    (by decide) (by decide)).1

end UScripts
